import Mathlib

/-!
Shallow embedding of the selector compiler of `src/selector.rs`
(`css_to_sql`, `tokenize`, `collect_identifier`, `parse_attribute`,
`generate_sql`, `escape_sql`) and of the error type `SelectorError`.

Strings are modelled as Lean `String`/`List Char`.  The Rust character
classification predicates (`char::is_alphabetic`, `char::is_alphanumeric`,
`char::is_whitespace`) are Unicode predicates in Rust; they are embedded
here by their ASCII restrictions, and every theorem that quantifies over
characters carries an ASCII hypothesis so that the embedding is faithful
on the quantified range.

The Rust tokenizer is a `while` loop over a peekable character iterator;
it is embedded as a fuelled recursion (`tokenizeFuel`), where the result
`none` means the loop has not finished within the given fuel.  A result
that is `none` for every fuel amount is a non-terminating run.
-/

/-- ASCII restriction of Rust `char::is_alphabetic`. -/
def rustIsAlphabetic (c : Char) : Bool :=
  ('A' ≤ c && c ≤ 'Z') || ('a' ≤ c && c ≤ 'z')

/-- ASCII restriction of Rust `char::is_ascii_digit` as used through
`char::is_alphanumeric`. -/
def rustIsDigit (c : Char) : Bool :=
  '0' ≤ c && c ≤ '9'

/-- ASCII restriction of Rust `char::is_alphanumeric`. -/
def rustIsAlphanumeric (c : Char) : Bool :=
  rustIsAlphabetic c || rustIsDigit c

/-- ASCII restriction of Rust `char::is_whitespace` (Unicode White_Space):
on ASCII these are HT, LF, VT, FF, CR and space. -/
def rustIsWhitespace (c : Char) : Bool :=
  c == ' ' || c == '\t' || c == '\n' || c == '\x0b' || c == '\x0c' || c == '\r'

/-- Embedding of `enum SelectorError` (src/selector.rs lines 3-7). -/
inductive SelectorError where
  | ParseError : String → SelectorError
  | UnsupportedFeature : String → SelectorError
deriving DecidableEq, Repr

/-- Embedding of `impl fmt::Display for SelectorError` (lines 9-16). -/
def SelectorError.display : SelectorError → String
  | .ParseError msg => "Parse error: " ++ msg
  | .UnsupportedFeature msg => "Unsupported feature: " ++ msg

/-- Embedding of `enum Combinator` (lines 31-37). -/
inductive Combinator where
  | Descendant
  | Child
  | NextSibling
  | GeneralSibling
deriving DecidableEq, Repr

/-- Embedding of `enum AttributeOperator` (lines 39-47). -/
inductive AttributeOperator where
  | Exists
  | Equals
  | Contains
  | StartsWith
  | EndsWith
  | WordMatch
deriving DecidableEq, Repr

/-- Alias for referring to the combinator enum inside `Token`, whose own
constructor `Token.Combinator` shadows the enum's name there. -/
abbrev CombinatorKind := Combinator

/-- Embedding of `enum Token` (lines 18-29). -/
inductive Token where
  | TagName : String → Token
  | Class : String → Token
  | Id : String → Token
  | Attribute : String → Option String → AttributeOperator → Token
  | Combinator : CombinatorKind → Token
deriving DecidableEq, Repr

/-- The character test `ch.is_alphanumeric() || ch == '-' || ch == '_'`
of `collect_identifier` (line 127). -/
def isIdentChar (c : Char) : Bool :=
  rustIsAlphanumeric c || c == '-' || c == '_'

/-- Embedding of `collect_identifier` (lines 124-135): greedily takes
alphanumeric, `-`, `_` characters, returning the identifier and the
remaining characters. -/
def collect_identifier : List Char → List Char × List Char
  | [] => ([], [])
  | c :: rest =>
    if isIdentChar c then
      let p := collect_identifier rest
      (c :: p.1, p.2)
    else
      ([], c :: rest)

/-- Embedding of the `while peek is_whitespace { next }` loops in
`tokenize` (lines 63-69) and `parse_attribute` (lines 141-147, 179-185). -/
def skipWhitespace : List Char → List Char
  | [] => []
  | c :: rest => if rustIsWhitespace c then skipWhitespace rest else c :: rest

/-- Embedding of `parse_attribute` (lines 137-231).  It is called with the
characters following `[` and returns the attribute token together with the
characters following the consumed clause, or the error message. -/
def parse_attribute (cs : List Char) : Except String (Token × List Char) :=
  let p := collect_identifier cs
  let name : String := ⟨p.1⟩
  let cs1 := skipWhitespace p.2
  match cs1 with
  | [] => .error "Unexpected end of attribute selector"
  | ch :: rest =>
    if ch == ']' then
      .ok (.Attribute name none .Exists, rest)
    else if ch == '=' || ch == '~' || ch == '^' || ch == '$' || ch == '*' then
      let opRes : Except String (AttributeOperator × List Char) :=
        if rest.head? == some '=' then
          .ok (if ch == '~' then .WordMatch
               else if ch == '^' then .StartsWith
               else if ch == '$' then .EndsWith
               else if ch == '*' then .Contains
               else .Equals, rest.tail)
        else if ch == '=' then .ok (.Equals, rest)
        else .error "Invalid attribute operator"
      match opRes with
      | .error e => .error e
      | .ok (op, rest2) =>
        let rest3 := skipWhitespace rest2
        match rest3 with
        | [] => .error "Expected attribute value"
        | q :: rest4 =>
          let pv : List Char × List Char :=
            if q == '"' || q == '\'' then
              let val := rest4.takeWhile (fun c => !(c == q))
              let after := rest4.dropWhile (fun c => !(c == q))
              (val, after.tail)
            else
              collect_identifier (q :: rest4)
          if pv.2.head? == some ']' then
            .ok (.Attribute name (some ⟨pv.1⟩) op, pv.2.tail)
          else
            .error "Expected closing bracket"
    else
      .error ("Unexpected character in attribute selector: " ++ String.singleton ch)

/-- Embedding of `tokens.last().map_or(false, |t| matches!(t, Token::Combinator(_)))`
(lines 73-75). -/
def lastIsCombinator (toks : List Token) : Bool :=
  match toks.getLast? with
  | some (.Combinator _) => true
  | _ => false

/-- Embedding of the `while let Some(&ch) = chars.peek()` loop of `tokenize`
(lines 58-119) as a fuelled recursion.  `none` means the loop did not
finish within `fuel` iterations. -/
def tokenizeFuel : Nat → List Char → List Token → Option (Except String (List Token))
  | 0, _, _ => none
  | _ + 1, [], toks => some (.ok toks)
  | fuel + 1, c :: cs, toks =>
    if c == ' ' || c == '\t' || c == '\n' then
      let rest := skipWhitespace cs
      let toks' :=
        match rest with
        | [] => toks
        | next :: _ =>
          if !(next == '>') && !(next == '+') && !(next == '~') && !lastIsCombinator toks then
            toks ++ [.Combinator .Descendant]
          else
            toks
      tokenizeFuel fuel rest toks'
    else if c == '>' then
      tokenizeFuel fuel cs (toks ++ [.Combinator .Child])
    else if c == '+' then
      tokenizeFuel fuel cs (toks ++ [.Combinator .NextSibling])
    else if c == '~' then
      tokenizeFuel fuel cs (toks ++ [.Combinator .GeneralSibling])
    else if c == '.' then
      let p := collect_identifier cs
      tokenizeFuel fuel p.2 (toks ++ [.Class ⟨p.1⟩])
    else if c == '#' then
      let p := collect_identifier cs
      tokenizeFuel fuel p.2 (toks ++ [.Id ⟨p.1⟩])
    else if c == '[' then
      match parse_attribute cs with
      | .error e => some (.error e)
      | .ok (t, rest) => tokenizeFuel fuel rest (toks ++ [t])
    else if rustIsAlphabetic c || c == '*' then
      let p := collect_identifier (c :: cs)
      if (⟨p.1⟩ : String) ≠ "*" then
        tokenizeFuel fuel p.2 (toks ++ [.TagName ⟨p.1⟩])
      else
        tokenizeFuel fuel p.2 toks
    else
      some (.error ("Unexpected character: " ++ String.singleton c))

/-- Embedding of Rust `str::trim` (ASCII restriction), applied by
`tokenize` via `selector.trim()` (line 56). -/
def rustTrim (cs : List Char) : List Char :=
  ((cs.dropWhile rustIsWhitespace).reverse.dropWhile rustIsWhitespace).reverse

/-- Embedding of `tokenize` (lines 54-122), fuelled. -/
def tokenize (fuel : Nat) (selector : String) : Option (Except String (List Token)) :=
  tokenizeFuel fuel (rustTrim selector.data) []

/-- Embedding of `escape_sql` (lines 369-371) at the character-list level:
`s.replace("'", "''")` doubles every single quote. -/
def escape_sql_chars : List Char → List Char
  | [] => []
  | c :: cs =>
    if c == '\'' then '\'' :: '\'' :: escape_sql_chars cs
    else c :: escape_sql_chars cs

/-- Embedding of `escape_sql` (lines 369-371). -/
def escape_sql (s : String) : String := ⟨escape_sql_chars s.data⟩

/-- Embedding of Rust `slice::join` as used for
`where_clauses.join(" AND ")` (line 363). -/
def joinStrings (sep : String) : List String → String
  | [] => ""
  | [x] => x
  | x :: y :: xs => x ++ sep ++ joinStrings sep (y :: xs)

/-- The mutable state of the `generate_sql` loop (lines 238-241):
`sql_joins`, `join_count`, `where_clauses`, `current_table`. -/
structure GenState where
  sql_joins : String
  join_count : Nat
  where_clauses : List String
  current_table : String
deriving DecidableEq, Repr

/-- Embedding of the `for (i, token) in tokens.iter().enumerate()` loop of
`generate_sql` (lines 243-357).  The Rust check `i + 1 >= tokens.len()`
for a combinator is the check that the combinator is the last token, i.e.
that the remaining list is empty. -/
def genLoop : List Token → GenState → Except String GenState
  | [], st => .ok st
  | .TagName tag :: rest, st =>
    genLoop rest { st with
      where_clauses := st.where_clauses ++
        [st.current_table ++ ".tag_name = '" ++ escape_sql tag ++ "'"] }
  | .Class cls :: rest, st =>
    let jc := st.join_count + 1
    let attr_alias := "a" ++ toString jc
    genLoop rest { st with
      join_count := jc
      sql_joins := st.sql_joins ++ ("\nJOIN attributes " ++ attr_alias ++ " ON " ++
        attr_alias ++ ".node_id = " ++ st.current_table ++ ".id")
      where_clauses := st.where_clauses ++
        [attr_alias ++ ".name = 'class'",
         "(" ++ attr_alias ++ ".value = '" ++ escape_sql cls ++ "' OR " ++
           attr_alias ++ ".value LIKE '% " ++ escape_sql cls ++ "' OR " ++
           attr_alias ++ ".value LIKE '" ++ escape_sql cls ++ " %' OR " ++
           attr_alias ++ ".value LIKE '% " ++ escape_sql cls ++ " %')"] }
  | .Id i :: rest, st =>
    let jc := st.join_count + 1
    let attr_alias := "a" ++ toString jc
    genLoop rest { st with
      join_count := jc
      sql_joins := st.sql_joins ++ ("\nJOIN attributes " ++ attr_alias ++ " ON " ++
        attr_alias ++ ".node_id = " ++ st.current_table ++ ".id")
      where_clauses := st.where_clauses ++
        [attr_alias ++ ".name = 'id'",
         attr_alias ++ ".value = '" ++ escape_sql i ++ "'"] }
  | .Attribute nm value op :: rest, st =>
    let jc := st.join_count + 1
    let attr_alias := "a" ++ toString jc
    let clauses1 := st.where_clauses ++ [attr_alias ++ ".name = '" ++ escape_sql nm ++ "'"]
    let clauses2 :=
      match value with
      | none => clauses1
      | some val =>
        match op with
        | .Exists => clauses1
        | .Equals => clauses1 ++ [attr_alias ++ ".value = '" ++ escape_sql val ++ "'"]
        | .Contains => clauses1 ++ [attr_alias ++ ".value LIKE '%" ++ escape_sql val ++ "%'"]
        | .StartsWith => clauses1 ++ [attr_alias ++ ".value LIKE '" ++ escape_sql val ++ "%'"]
        | .EndsWith => clauses1 ++ [attr_alias ++ ".value LIKE '%" ++ escape_sql val ++ "'"]
        | .WordMatch => clauses1 ++
            ["(" ++ attr_alias ++ ".value = '" ++ escape_sql val ++ "' OR " ++
              attr_alias ++ ".value LIKE '% " ++ escape_sql val ++ "' OR " ++
              attr_alias ++ ".value LIKE '" ++ escape_sql val ++ " %' OR " ++
              attr_alias ++ ".value LIKE '% " ++ escape_sql val ++ " %')"]
    genLoop rest { st with
      join_count := jc
      sql_joins := st.sql_joins ++ ("\nJOIN attributes " ++ attr_alias ++ " ON " ++
        attr_alias ++ ".node_id = " ++ st.current_table ++ ".id")
      where_clauses := clauses2 }
  | .Combinator c :: rest, st =>
    match rest with
    | [] => .error "Combinator must be followed by a selector"
    | _ :: _ =>
      let jc := st.join_count + 1
      let next_table := "n" ++ toString jc
      match c with
      | .Child =>
        genLoop rest { st with
          join_count := jc
          sql_joins := st.sql_joins ++ ("\nJOIN nodes " ++ next_table ++ " ON " ++
            next_table ++ ".parent_id = " ++ st.current_table ++ ".id")
          current_table := next_table }
      | .Descendant =>
        genLoop rest { st with
          join_count := jc
          sql_joins := st.sql_joins ++ ("\nJOIN nodes " ++ next_table ++ " ON " ++
            next_table ++ ".id IN (\n    WITH RECURSIVE descendants AS (\n        SELECT id FROM nodes WHERE parent_id = " ++
            st.current_table ++ ".id\n        UNION ALL\n        SELECT n.id FROM nodes n\n        JOIN descendants d ON n.parent_id = d.id\n    )\n    SELECT id FROM descendants\n)")
          current_table := next_table }
      | .NextSibling => .error "Next sibling combinator (+) not yet supported"
      | .GeneralSibling => .error "General sibling combinator (~) not yet supported"

/-- Embedding of `generate_sql` (lines 233-367). -/
def generate_sql (tokens : List Token) : Except String String :=
  match tokens with
  | [] => .ok "SELECT * FROM nodes"
  | _ :: _ =>
    match genLoop tokens ⟨"FROM nodes n1", 1, [], "n1"⟩ with
    | .error e => .error e
    | .ok st =>
      let sql := "SELECT DISTINCT " ++ st.current_table ++ ".*\n" ++ st.sql_joins
      match st.where_clauses with
      | [] => .ok sql
      | _ :: _ => .ok (sql ++ "\nWHERE " ++ joinStrings " AND " st.where_clauses)

/-- Embedding of `css_to_sql` (lines 49-52), fuelled through `tokenize`. -/
def css_to_sql (fuel : Nat) (selector : String) : Option (Except String String) :=
  match tokenize fuel selector with
  | none => none
  | some (.error e) => some (.error e)
  | some (.ok toks) => some (generate_sql toks)

/-- Decidable test for membership in the image of `SelectorError.display`:
a rendered `SelectorError` starts with one of the two `Display` prefixes. -/
def isSelectorErrorDisplay (s : String) : Bool :=
  List.isPrefixOf "Parse error: ".data s.data ||
  List.isPrefixOf "Unsupported feature: ".data s.data

/-- Modelled from the spec: the set of characters the spec claims the
tokenizer accepts outside an attribute clause ("alphanumeric, `-`, `_`,
`.`, `#`, `[`, `>`, `+`, `~`, whitespace, or the start of an
identifier/tag"), for comparison with the code's dispatch. -/
def specClaimedAllowedChar (c : Char) : Bool :=
  rustIsAlphanumeric c || c == '-' || c == '_' || c == '.' || c == '#' ||
  c == '[' || c == '>' || c == '+' || c == '~' || rustIsWhitespace c ||
  rustIsAlphabetic c || c == '*'

/-- The characters actually accepted by the dispatch of `tokenize`
(lines 58-118): the match arms `' ' | '\t' | '\n'`, `'>'`, `'+'`, `'~'`,
`'.'`, `'#'`, `'['` and the guard `ch.is_alphabetic() || ch == '*'`. -/
def dispatchAccepted (c : Char) : Bool :=
  c == ' ' || c == '\t' || c == '\n' || c == '>' || c == '+' || c == '~' ||
  c == '.' || c == '#' || c == '[' || rustIsAlphabetic c || c == '*'

/-- The condition of lines 70-79 under which a consumed whitespace run
emits a `Descendant` token: some character follows the run, it is not
`>`, `+` or `~`, and the previously emitted token is not a combinator. -/
def emitsDescendant (rest : List Char) (toks : List Token) : Bool :=
  match rest with
  | [] => false
  | next :: _ =>
    !(next == '>') && !(next == '+') && !(next == '~') && !lastIsCombinator toks

/-- Every single quote in the list occurs as part of an adjacent pair:
such a list never terminates a quoted SQL string literal early. -/
def quotesPaired : List Char → Bool
  | [] => true
  | [c] => !(c == '\'')
  | c :: c2 :: cs =>
    if c == '\'' then c2 == '\'' && quotesPaired cs
    else quotesPaired (c2 :: cs)

deriving instance DecidableEq for Except

/-! ## Helper lemmas -/

theorem skipWhitespace_eq_dropWhile : ∀ l : List Char,
    skipWhitespace l = l.dropWhile rustIsWhitespace := by
  intro l
  induction l with
  | nil => rfl
  | cons c cs ih =>
    simp only [skipWhitespace, List.dropWhile]
    cases h : rustIsWhitespace c <;> simp [h, ih]

/-- The `*` arm of `tokenize` never consumes the `*`: `collect_identifier`
rejects `*` immediately, so each iteration of the loop leaves the character
stream unchanged, and the loop never finishes for any amount of fuel. -/
theorem tokenizeFuel_star : ∀ (fuel : Nat) (cs : List Char) (toks : List Token),
    tokenizeFuel fuel ('*' :: cs) toks = none := by
  intro fuel
  induction fuel with
  | zero => intro cs toks; rfl
  | succ n ih =>
    intro cs toks
    have h : tokenizeFuel (n + 1) ('*' :: cs) toks
        = tokenizeFuel n ('*' :: cs) (toks ++ [Token.TagName ""]) := rfl
    rw [h]
    exact ih cs (toks ++ [Token.TagName ""])

theorem appendMerge (a b c : String) (h : a ++ b = c) (r : String) :
    a ++ (b ++ r) = c ++ r := by rw [← String.append_assoc, h]

theorem collect_identifier_split (l r : List Char) (hl : l.all isIdentChar = true)
    (hr : ∀ c, r.head? = some c → isIdentChar c = false) :
    collect_identifier (l ++ r) = (l, r) := by
  induction l with
  | nil =>
    cases r with
    | nil => rfl
    | cons c r2 =>
      have hc := hr c rfl
      simp [collect_identifier, hc]
  | cons c l2 ih =>
    simp only [List.all_cons, Bool.and_eq_true] at hl
    simp [collect_identifier, hl.1, ih hl.2]

theorem ws_cases (c : Char) (h : rustIsWhitespace c = true) :
    c = ' ' ∨ c = '\t' ∨ c = '\n' ∨ c = '\x0b' ∨ c = '\x0c' ∨ c = '\r' := by
  simp [rustIsWhitespace] at h
  tauto

theorem ident_not_ws (c : Char) (h : isIdentChar c = true) :
    rustIsWhitespace c = false := by
  cases hw : rustIsWhitespace c
  · rfl
  · rcases ws_cases c hw with rfl | rfl | rfl | rfl | rfl | rfl <;> exact absurd h (by decide)

theorem ident_ne (c d : Char) (h : isIdentChar c = true) (hd : isIdentChar d = false) :
    c ≠ d := by
  intro e
  subst e
  rw [h] at hd
  cases hd

theorem takeWhile_until (q : Char) (val r : List Char) (h : ∀ c ∈ val, c ≠ q) :
    (val ++ q :: r).takeWhile (fun c => !(c == q)) = val := by
  induction val with
  | nil => simp [List.takeWhile]
  | cons v vs ih =>
    have hv : v ≠ q := h v (by simp)
    simp only [List.cons_append, List.takeWhile_cons]
    simp [hv, ih (fun c hc => h c (by simp [hc]))]

theorem dropWhile_until (q : Char) (val r : List Char) (h : ∀ c ∈ val, c ≠ q) :
    (val ++ q :: r).dropWhile (fun c => !(c == q)) = q :: r := by
  induction val with
  | nil => simp [List.dropWhile]
  | cons v vs ih =>
    have hv : v ≠ q := h v (by simp)
    simp only [List.cons_append, List.dropWhile_cons]
    simp [hv, ih (fun c hc => h c (by simp [hc]))]

/-- An all-identifier value followed by the closing bracket splits at the
bracket under `collect_identifier`. -/
theorem unquoted_value_split (val rest : List Char) (hv : val.all isIdentChar = true) :
    collect_identifier (val ++ ']' :: rest) = (val, ']' :: rest) :=
  collect_identifier_split val (']' :: rest) hv
    (by intro c hc; simp at hc; subst hc; rfl)

theorem parse_attribute_exists (name rest : List Char) (hn : name.all isIdentChar = true) :
    parse_attribute (name ++ ']' :: rest) =
      .ok (Token.Attribute ⟨name⟩ none AttributeOperator.Exists, rest) := by
  have hsplit := collect_identifier_split name (']' :: rest) hn
    (by intro c hc; simp at hc; subst hc; rfl)
  simp only [parse_attribute, hsplit]
  simp [skipWhitespace, show rustIsWhitespace ']' = false from rfl]

theorem parse_attribute_equals_unquoted (name val rest : List Char)
    (hn : name.all isIdentChar = true) (hv : val.all isIdentChar = true) :
    parse_attribute (name ++ '=' :: (val ++ ']' :: rest)) =
      .ok (Token.Attribute ⟨name⟩ (some ⟨val⟩) AttributeOperator.Equals, rest) := by
  have hsplit := collect_identifier_split name ('=' :: (val ++ ']' :: rest)) hn
    (by intro c hc; simp at hc; subst hc; rfl)
  simp only [parse_attribute, hsplit]
  cases val with
  | nil =>
    simp [skipWhitespace, collect_identifier,
          show rustIsWhitespace '=' = false from rfl,
          show rustIsWhitespace ']' = false from rfl,
          show isIdentChar ']' = false from rfl]
  | cons v vs =>
    have hvs := unquoted_value_split (v :: vs) rest hv
    have hvs' : collect_identifier (v :: (vs ++ ']' :: rest)) = (v :: vs, ']' :: rest) := by
      rw [← List.cons_append]; exact hvs
    have hvi : isIdentChar v = true := by
      simp only [List.all_cons, Bool.and_eq_true] at hv; exact hv.1
    have h1 : v ≠ '=' := ident_ne v '=' hvi (by decide)
    have h2 : rustIsWhitespace v = false := ident_not_ws v hvi
    have h3 : v ≠ '"' := ident_ne v '"' hvi (by decide)
    have h4 : v ≠ '\'' := ident_ne v '\'' hvi (by decide)
    simp [skipWhitespace, show rustIsWhitespace '=' = false from rfl, h1, h2, h3, h4, hvs']

theorem parse_attribute_wordmatch (name val rest : List Char)
    (hn : name.all isIdentChar = true) (hv : val.all isIdentChar = true) :
    parse_attribute (name ++ '~' :: '=' :: (val ++ ']' :: rest)) =
      .ok (Token.Attribute ⟨name⟩ (some ⟨val⟩) AttributeOperator.WordMatch, rest) := by
  have hsplit := collect_identifier_split name ('~' :: '=' :: (val ++ ']' :: rest)) hn
    (by intro c hc; simp at hc; subst hc; rfl)
  simp only [parse_attribute, hsplit]
  cases val with
  | nil =>
    simp [skipWhitespace, collect_identifier,
          show rustIsWhitespace '~' = false from rfl,
          show rustIsWhitespace ']' = false from rfl,
          show isIdentChar ']' = false from rfl]
  | cons v vs =>
    have hvs := unquoted_value_split (v :: vs) rest hv
    have hvs' : collect_identifier (v :: (vs ++ ']' :: rest)) = (v :: vs, ']' :: rest) := by
      rw [← List.cons_append]; exact hvs
    have hvi : isIdentChar v = true := by
      simp only [List.all_cons, Bool.and_eq_true] at hv; exact hv.1
    have h2 : rustIsWhitespace v = false := ident_not_ws v hvi
    have h3 : v ≠ '"' := ident_ne v '"' hvi (by decide)
    have h4 : v ≠ '\'' := ident_ne v '\'' hvi (by decide)
    simp [skipWhitespace, show rustIsWhitespace '~' = false from rfl, h2, h3, h4, hvs']

theorem parse_attribute_startswith (name val rest : List Char)
    (hn : name.all isIdentChar = true) (hv : val.all isIdentChar = true) :
    parse_attribute (name ++ '^' :: '=' :: (val ++ ']' :: rest)) =
      .ok (Token.Attribute ⟨name⟩ (some ⟨val⟩) AttributeOperator.StartsWith, rest) := by
  have hsplit := collect_identifier_split name ('^' :: '=' :: (val ++ ']' :: rest)) hn
    (by intro c hc; simp at hc; subst hc; rfl)
  simp only [parse_attribute, hsplit]
  cases val with
  | nil =>
    simp [skipWhitespace, collect_identifier,
          show rustIsWhitespace '^' = false from rfl,
          show rustIsWhitespace ']' = false from rfl,
          show isIdentChar ']' = false from rfl]
  | cons v vs =>
    have hvs := unquoted_value_split (v :: vs) rest hv
    have hvs' : collect_identifier (v :: (vs ++ ']' :: rest)) = (v :: vs, ']' :: rest) := by
      rw [← List.cons_append]; exact hvs
    have hvi : isIdentChar v = true := by
      simp only [List.all_cons, Bool.and_eq_true] at hv; exact hv.1
    have h2 : rustIsWhitespace v = false := ident_not_ws v hvi
    have h3 : v ≠ '"' := ident_ne v '"' hvi (by decide)
    have h4 : v ≠ '\'' := ident_ne v '\'' hvi (by decide)
    simp [skipWhitespace, show rustIsWhitespace '^' = false from rfl, h2, h3, h4, hvs']

theorem parse_attribute_endswith (name val rest : List Char)
    (hn : name.all isIdentChar = true) (hv : val.all isIdentChar = true) :
    parse_attribute (name ++ '$' :: '=' :: (val ++ ']' :: rest)) =
      .ok (Token.Attribute ⟨name⟩ (some ⟨val⟩) AttributeOperator.EndsWith, rest) := by
  have hsplit := collect_identifier_split name ('$' :: '=' :: (val ++ ']' :: rest)) hn
    (by intro c hc; simp at hc; subst hc; rfl)
  simp only [parse_attribute, hsplit]
  cases val with
  | nil =>
    simp [skipWhitespace, collect_identifier,
          show rustIsWhitespace '$' = false from rfl,
          show rustIsWhitespace ']' = false from rfl,
          show isIdentChar ']' = false from rfl]
  | cons v vs =>
    have hvs := unquoted_value_split (v :: vs) rest hv
    have hvs' : collect_identifier (v :: (vs ++ ']' :: rest)) = (v :: vs, ']' :: rest) := by
      rw [← List.cons_append]; exact hvs
    have hvi : isIdentChar v = true := by
      simp only [List.all_cons, Bool.and_eq_true] at hv; exact hv.1
    have h2 : rustIsWhitespace v = false := ident_not_ws v hvi
    have h3 : v ≠ '"' := ident_ne v '"' hvi (by decide)
    have h4 : v ≠ '\'' := ident_ne v '\'' hvi (by decide)
    simp [skipWhitespace, show rustIsWhitespace '$' = false from rfl, h2, h3, h4, hvs']

theorem parse_attribute_contains (name val rest : List Char)
    (hn : name.all isIdentChar = true) (hv : val.all isIdentChar = true) :
    parse_attribute (name ++ '*' :: '=' :: (val ++ ']' :: rest)) =
      .ok (Token.Attribute ⟨name⟩ (some ⟨val⟩) AttributeOperator.Contains, rest) := by
  have hsplit := collect_identifier_split name ('*' :: '=' :: (val ++ ']' :: rest)) hn
    (by intro c hc; simp at hc; subst hc; rfl)
  simp only [parse_attribute, hsplit]
  cases val with
  | nil =>
    simp [skipWhitespace, collect_identifier,
          show rustIsWhitespace '*' = false from rfl,
          show rustIsWhitespace ']' = false from rfl,
          show isIdentChar ']' = false from rfl]
  | cons v vs =>
    have hvs := unquoted_value_split (v :: vs) rest hv
    have hvs' : collect_identifier (v :: (vs ++ ']' :: rest)) = (v :: vs, ']' :: rest) := by
      rw [← List.cons_append]; exact hvs
    have hvi : isIdentChar v = true := by
      simp only [List.all_cons, Bool.and_eq_true] at hv; exact hv.1
    have h2 : rustIsWhitespace v = false := ident_not_ws v hvi
    have h3 : v ≠ '"' := ident_ne v '"' hvi (by decide)
    have h4 : v ≠ '\'' := ident_ne v '\'' hvi (by decide)
    simp [skipWhitespace, show rustIsWhitespace '*' = false from rfl, h2, h3, h4, hvs']

theorem parse_attribute_quoted_sq (name val rest : List Char)
    (hn : name.all isIdentChar = true) (hval : ∀ c ∈ val, c ≠ '\'') :
    parse_attribute (name ++ '=' :: '\'' :: (val ++ '\'' :: ']' :: rest)) =
      .ok (Token.Attribute ⟨name⟩ (some ⟨val⟩) AttributeOperator.Equals, rest) := by
  have htake := takeWhile_until '\'' val (']' :: rest) hval
  have hdrop := dropWhile_until '\'' val (']' :: rest) hval
  have hsplit := collect_identifier_split name ('=' :: '\'' :: (val ++ '\'' :: ']' :: rest)) hn
    (by intro c hc; simp at hc; subst hc; rfl)
  simp only [parse_attribute, hsplit]
  simp [skipWhitespace, show rustIsWhitespace '=' = false from rfl,
        show rustIsWhitespace '\'' = false from rfl, htake, hdrop]

theorem parse_attribute_quoted_dq (name val rest : List Char)
    (hn : name.all isIdentChar = true) (hval : ∀ c ∈ val, c ≠ '"') :
    parse_attribute (name ++ '=' :: '"' :: (val ++ '"' :: ']' :: rest)) =
      .ok (Token.Attribute ⟨name⟩ (some ⟨val⟩) AttributeOperator.Equals, rest) := by
  have htake := takeWhile_until '"' val (']' :: rest) hval
  have hdrop := dropWhile_until '"' val (']' :: rest) hval
  have hsplit := collect_identifier_split name ('=' :: '"' :: (val ++ '"' :: ']' :: rest)) hn
    (by intro c hc; simp at hc; subst hc; rfl)
  simp only [parse_attribute, hsplit]
  simp [skipWhitespace, show rustIsWhitespace '=' = false from rfl,
        show rustIsWhitespace '"' = false from rfl, htake, hdrop]

/-- Dispatch failure: any character outside the accepted dispatch set makes
`tokenize` fail at once with the "Unexpected character" error naming it. -/
theorem tokenize_dispatch_err (c : Char) (cs : List Char) (toks : List Token) (fuel : Nat)
    (h : dispatchAccepted c = false) :
    tokenizeFuel (fuel + 1) (c :: cs) toks =
      some (.error ("Unexpected character: " ++ String.singleton c)) := by
  simp only [dispatchAccepted, Bool.or_eq_false_iff] at h
  obtain ⟨⟨⟨⟨⟨⟨⟨⟨⟨⟨h1, h2⟩, h3⟩, h4⟩, h5⟩, h6⟩, h7⟩, h8⟩, h9⟩, h10⟩, h11⟩ := h
  simp [tokenizeFuel, h1, h2, h3, h4, h5, h6, h7, h8, h9, h10, h11]

/-- On every single-character ASCII selector, the tokenizer run produces
the "Unexpected character" error exactly for the characters outside the
dispatch set of the code. -/
theorem tokenize_dispatch_iff : ∀ n : Nat, n < 128 →
    ((tokenizeFuel 3 [Char.ofNat n] [] =
       some (.error ("Unexpected character: " ++ String.singleton (Char.ofNat n)))) ↔
     dispatchAccepted (Char.ofNat n) = false) := by decide

/-- A token list containing a sibling combinator is always rejected by the
generator loop, whatever the running state. -/
theorem genLoop_sibling_error (toks : List Token) (st : GenState)
    (h : Token.Combinator Combinator.NextSibling ∈ toks ∨
         Token.Combinator Combinator.GeneralSibling ∈ toks) :
    ∃ e, genLoop toks st = .error e := by
  induction toks generalizing st with
  | nil => simp at h
  | cons t ts ih =>
    have tailcase : ∀ st' : GenState,
        (Token.Combinator Combinator.NextSibling = t ∨
           Token.Combinator Combinator.NextSibling ∈ ts) ∨
        (Token.Combinator Combinator.GeneralSibling = t ∨
           Token.Combinator Combinator.GeneralSibling ∈ ts) →
        t ≠ Token.Combinator Combinator.NextSibling →
        t ≠ Token.Combinator Combinator.GeneralSibling →
        ∃ e, genLoop ts st' = .error e := by
      intro st' hm hne1 hne2
      apply ih
      rcases hm with hm | hm
      · rcases hm with hm | hm
        · exact absurd hm.symm hne1
        · exact Or.inl hm
      · rcases hm with hm | hm
        · exact absurd hm.symm hne2
        · exact Or.inr hm
    simp only [List.mem_cons] at h
    cases t with
    | TagName s => simpa [genLoop] using tailcase _ h (by simp) (by simp)
    | Class s => simpa [genLoop] using tailcase _ h (by simp) (by simp)
    | Id s => simpa [genLoop] using tailcase _ h (by simp) (by simp)
    | Attribute nm val op => simpa [genLoop] using tailcase _ h (by simp) (by simp)
    | Combinator c =>
      cases ts with
      | nil => exact ⟨"Combinator must be followed by a selector", by simp [genLoop]⟩
      | cons t2 ts2 =>
        cases c with
        | NextSibling =>
          exact ⟨"Next sibling combinator (+) not yet supported", by simp [genLoop]⟩
        | GeneralSibling =>
          exact ⟨"General sibling combinator (~) not yet supported", by simp [genLoop]⟩
        | Child => simpa [genLoop] using tailcase _ h (by simp) (by simp)
        | Descendant => simpa [genLoop] using tailcase _ h (by simp) (by simp)

theorem quotesPaired_escape (l : List Char) : quotesPaired (escape_sql_chars l) = true := by
  induction l with
  | nil => rfl
  | cons c cs ih =>
    by_cases hc : c = '\''
    · subst hc
      simp [escape_sql_chars, quotesPaired, ih]
    · cases hE : escape_sql_chars cs with
      | nil => simp [escape_sql_chars, quotesPaired, hc, hE]
      | cons d ds =>
        rw [hE] at ih
        simp [escape_sql_chars, quotesPaired, hc, hE, ih]

theorem escape_sql_chars_id (l : List Char) (h : ∀ c ∈ l, c ≠ '\'') :
    escape_sql_chars l = l := by
  induction l with
  | nil => rfl
  | cons c cs ih =>
    have hc : c ≠ '\'' := h c (by simp)
    simp [escape_sql_chars, hc, ih (fun x hx => h x (by simp [hx]))]

/-- The query text generated for a lone tag token interpolates the escaped
tag between single-quote delimiters. -/
theorem generate_sql_tag (v : String) :
    generate_sql [Token.TagName v] =
      .ok ("SELECT DISTINCT n1.*\nFROM nodes n1\nWHERE n1.tag_name = '" ++ escape_sql v ++ "'") := by
  have hs : ("SELECT DISTINCT n1.*\nFROM nodes n1\nWHERE n1.tag_name = '" : String)
      = "SELECT DISTINCT " ++ "n1" ++ ".*\n" ++ "FROM nodes n1" ++ "\nWHERE " ++ "n1" ++ ".tag_name = '" := rfl
  rw [hs]
  simp only [generate_sql, genLoop, joinStrings, List.nil_append, String.append_assoc]

/-- The query text generated for a lone class token interpolates the escaped
class name, escaped, at all four positions of the word-boundary disjunction. -/
theorem generate_sql_class (v : String) :
    generate_sql [Token.Class v] =
      .ok ("SELECT DISTINCT n1.*\nFROM nodes n1\nJOIN attributes a2 ON a2.node_id = n1.id\nWHERE a2.name = 'class' AND (a2.value = '"
        ++ escape_sql v ++ "' OR a2.value LIKE '% " ++ escape_sql v ++ "' OR a2.value LIKE '"
        ++ escape_sql v ++ " %' OR a2.value LIKE '% " ++ escape_sql v ++ " %')") := by
  have h1 : ("SELECT DISTINCT n1.*\nFROM nodes n1\nJOIN attributes a2 ON a2.node_id = n1.id\nWHERE a2.name = 'class' AND (a2.value = '" : String)
      = "SELECT DISTINCT " ++ "n1" ++ ".*\n" ++
        ("FROM nodes n1" ++ ("\nJOIN attributes " ++ ("a" ++ toString 2) ++ " ON " ++ ("a" ++ toString 2) ++ ".node_id = " ++ "n1" ++ ".id")) ++
        "\nWHERE " ++ (("a" ++ toString 2) ++ ".name = 'class'") ++ " AND " ++
        ("(" ++ ("a" ++ toString 2) ++ ".value = '") := rfl
  have h2 : ("' OR a2.value LIKE '% " : String) = "' OR " ++ ("a" ++ toString 2) ++ ".value LIKE '% " := rfl
  have h3 : ("' OR a2.value LIKE '" : String) = "' OR " ++ ("a" ++ toString 2) ++ ".value LIKE '" := rfl
  have h4 : (" %' OR a2.value LIKE '% " : String) = " %' OR " ++ ("a" ++ toString 2) ++ ".value LIKE '% " := rfl
  rw [h1, h2, h3, h4]
  simp only [generate_sql, genLoop, joinStrings, List.nil_append, String.append_assoc]

theorem isPrefixOf_append_self (l r : List Char) : List.isPrefixOf l (l ++ r) = true := by
  induction l with
  | nil => simp [List.isPrefixOf]
  | cons c cs ih => simp [List.isPrefixOf, ih]

/-- Every rendered `SelectorError` starts with one of the two `Display`
prefixes. -/
theorem selectorError_display_in_image (e : SelectorError) :
    isSelectorErrorDisplay e.display = true := by
  cases e with
  | ParseError msg =>
    simp only [SelectorError.display, isSelectorErrorDisplay]
    have h : ("Parse error: " ++ msg).data = "Parse error: ".data ++ msg.data := rfl
    rw [h, isPrefixOf_append_self]
    simp
  | UnsupportedFeature msg =>
    simp only [SelectorError.display, isSelectorErrorDisplay]
    have h : ("Unsupported feature: " ++ msg).data = "Unsupported feature: ".data ++ msg.data := rfl
    rw [h, isPrefixOf_append_self]
    simp

theorem ws_run_step_space (cs : List Char) (toks : List Token) (fuel : Nat) :
    tokenizeFuel (fuel + 1) (' ' :: cs) toks =
      tokenizeFuel fuel ((' ' :: cs).dropWhile rustIsWhitespace)
        (toks ++ (if emitsDescendant ((' ' :: cs).dropWhile rustIsWhitespace) toks
                  then [Token.Combinator Combinator.Descendant] else [])) := by
  have hd : (' ' :: cs).dropWhile rustIsWhitespace = cs.dropWhile rustIsWhitespace := by
    simp [List.dropWhile, rustIsWhitespace]
  rw [hd]
  show (let rest := skipWhitespace cs;
        let toks2 :=
          match rest with
          | [] => toks
          | next :: _ =>
            if !(next == '>') && !(next == '+') && !(next == '~') && !lastIsCombinator toks then
              toks ++ [.Combinator .Descendant]
            else toks
        tokenizeFuel fuel rest toks2) = _
  rw [skipWhitespace_eq_dropWhile]
  cases h : cs.dropWhile rustIsWhitespace with
  | nil => simp [emitsDescendant]
  | cons next rest2 =>
    simp only [emitsDescendant]
    split <;> rename_i hcond <;> simp [hcond]

theorem ws_run_step_tab (cs : List Char) (toks : List Token) (fuel : Nat) :
    tokenizeFuel (fuel + 1) ('\t' :: cs) toks =
      tokenizeFuel fuel (('\t' :: cs).dropWhile rustIsWhitespace)
        (toks ++ (if emitsDescendant (('\t' :: cs).dropWhile rustIsWhitespace) toks
                  then [Token.Combinator Combinator.Descendant] else [])) := by
  have hd : ('\t' :: cs).dropWhile rustIsWhitespace = cs.dropWhile rustIsWhitespace := by
    simp [List.dropWhile, rustIsWhitespace]
  rw [hd]
  show (let rest := skipWhitespace cs;
        let toks2 :=
          match rest with
          | [] => toks
          | next :: _ =>
            if !(next == '>') && !(next == '+') && !(next == '~') && !lastIsCombinator toks then
              toks ++ [.Combinator .Descendant]
            else toks
        tokenizeFuel fuel rest toks2) = _
  rw [skipWhitespace_eq_dropWhile]
  cases h : cs.dropWhile rustIsWhitespace with
  | nil => simp [emitsDescendant]
  | cons next rest2 =>
    simp only [emitsDescendant]
    split <;> rename_i hcond <;> simp [hcond]

theorem ws_run_step_newline (cs : List Char) (toks : List Token) (fuel : Nat) :
    tokenizeFuel (fuel + 1) ('\n' :: cs) toks =
      tokenizeFuel fuel (('\n' :: cs).dropWhile rustIsWhitespace)
        (toks ++ (if emitsDescendant (('\n' :: cs).dropWhile rustIsWhitespace) toks
                  then [Token.Combinator Combinator.Descendant] else [])) := by
  have hd : ('\n' :: cs).dropWhile rustIsWhitespace = cs.dropWhile rustIsWhitespace := by
    simp [List.dropWhile, rustIsWhitespace]
  rw [hd]
  show (let rest := skipWhitespace cs;
        let toks2 :=
          match rest with
          | [] => toks
          | next :: _ =>
            if !(next == '>') && !(next == '+') && !(next == '~') && !lastIsCombinator toks then
              toks ++ [.Combinator .Descendant]
            else toks
        tokenizeFuel fuel rest toks2) = _
  rw [skipWhitespace_eq_dropWhile]
  cases h : cs.dropWhile rustIsWhitespace with
  | nil => simp [emitsDescendant]
  | cons next rest2 =>
    simp only [emitsDescendant]
    split <;> rename_i hcond <;> simp [hcond]

/-! ## Claim theorems -/

/-- Claim C1: the spec says the wildcard `*` is recognized, consumed, and
produces no token.  In the code the `*` is never consumed: each loop
iteration on a `*` at the dispatch point leaves the character stream
unchanged and pushes a `TagName ""` token, so tokenization of `"*"` never
finishes at any fuel amount. -/
theorem c1_wildcard_star_never_consumed :
    (∀ (fuel : Nat) (cs : List Char) (toks : List Token),
       tokenizeFuel (fuel + 1) ('*' :: cs) toks =
         tokenizeFuel fuel ('*' :: cs) (toks ++ [Token.TagName ""])) ∧
    (∀ fuel : Nat, tokenize fuel "*" = none) := by
  constructor
  · intro fuel cs toks
    rfl
  · intro fuel
    show tokenizeFuel fuel (rustTrim (String.data "*")) [] = none
    have hr : rustTrim (String.data "*") = ['*'] := rfl
    rw [hr]
    exact tokenizeFuel_star fuel [] []

/-- Claim C2: the spec says `css_to_sql` is a total pure function.  On the
input `"*"` the tokenizer loop never terminates, so `css_to_sql` does not
return for any fuel amount. -/
theorem c2_css_to_sql_not_total_on_star :
    ∀ fuel : Nat, css_to_sql fuel "*" = none := by
  intro fuel
  have h : tokenize fuel "*" = none := by
    show tokenizeFuel fuel (rustTrim (String.data "*")) [] = none
    have hr : rustTrim (String.data "*") = ['*'] := rfl
    rw [hr]
    exact tokenizeFuel_star fuel [] []
  simp [css_to_sql, h]

/-- Claim C3, counterexample: the failure of `css_to_sql` on `"-"` is the
plain string "Unexpected character: -", which is not the rendering of any
`SelectorError` (it carries neither `Display` prefix of that type). -/
theorem c3_counterexample :
    css_to_sql 1 "-" = some (.error "Unexpected character: -") ∧
    isSelectorErrorDisplay "Unexpected character: -" = false :=
  ⟨rfl, rfl⟩

/-- Claim C3, amended: the source defines `SelectorError` with exactly the
two variants `ParseError` and `UnsupportedFeature`, rendered by `Display`
with the prefixes "Parse error: " and "Unsupported feature: "; but
`css_to_sql` returns plain string errors that are not `SelectorError`
renderings, for parse failures and unsupported-feature failures alike. -/
theorem c3_errors_are_plain_strings :
    (∀ e : SelectorError, isSelectorErrorDisplay e.display = true) ∧
    css_to_sql 1 "-" = some (.error "Unexpected character: -") ∧
    isSelectorErrorDisplay "Unexpected character: -" = false ∧
    css_to_sql 10 "a + b" = some (.error "Next sibling combinator (+) not yet supported") ∧
    isSelectorErrorDisplay "Next sibling combinator (+) not yet supported" = false :=
  ⟨selectorError_display_in_image, rfl, rfl, rfl, rfl⟩

/-- Claim C4, counterexample: `-` is in the character set the spec claims
is accepted at the tokenizer dispatch, yet the tokenizer fails on it with
the "Unexpected character" parse error. -/
theorem c4_counterexample :
    specClaimedAllowedChar '-' = true ∧
    tokenizeFuel 1 ['-'] [] = some (.error "Unexpected character: -") :=
  ⟨rfl, rfl⟩

/-- Claim C4, amended: outside an attribute clause the tokenizer fails with
the parse error naming the offending character exactly when the character
is not one of `' '`, `'\t'`, `'\n'`, `'>'`, `'+'`, `'~'`, `'.'`, `'#'`,
`'['`, an alphabetic character, or `'*'` (so digits, `-`, `_` and
non-`' '/'\t'/'\n'` whitespace at the dispatch point are all rejected,
contrary to the spec's larger allowed set). -/
theorem c4_dispatch_error_charset :
    (∀ (c : Char) (cs : List Char) (toks : List Token) (fuel : Nat),
       dispatchAccepted c = false →
       tokenizeFuel (fuel + 1) (c :: cs) toks =
         some (.error ("Unexpected character: " ++ String.singleton c))) ∧
    (∀ n : Nat, n < 128 →
       ((tokenizeFuel 3 [Char.ofNat n] [] =
          some (.error ("Unexpected character: " ++ String.singleton (Char.ofNat n)))) ↔
        dispatchAccepted (Char.ofNat n) = false)) :=
  ⟨tokenize_dispatch_err, tokenize_dispatch_iff⟩

theorem c4_dispatch_error_charset_witness :
    (dispatchAccepted '@' = false ∧
     tokenizeFuel 1 ['@'] [] =
       some (.error ("Unexpected character: " ++ String.singleton '@'))) ∧
    (45 < 128 ∧
     ((tokenizeFuel 3 [Char.ofNat 45] [] =
        some (.error ("Unexpected character: " ++ String.singleton (Char.ofNat 45)))) ↔
      dispatchAccepted (Char.ofNat 45) = false)) :=
  ⟨⟨rfl, c4_dispatch_error_charset.1 '@' [] [] 0 rfl⟩,
   ⟨by decide, c4_dispatch_error_charset.2 45 (by decide)⟩⟩

/-- Claim C5, counterexample: the whitespace run "\r" between `a` and `b`
satisfies conditions (a) and (b) of the claim, yet it is not consumed as a
unit yielding a `Descendant` token: the tokenizer fails on the carriage
return with a parse error, because only `' '`, `'\t'`, `'\n'` start the
whitespace arm. -/
theorem c5_counterexample :
    rustIsWhitespace '\r' = true ∧
    tokenizeFuel 3 ['a', '\r', 'b'] [] = some (.error "Unexpected character: \r") :=
  ⟨rfl, rfl⟩

/-- Claim C5, amended: a maximal whitespace run that begins with `' '`,
`'\t'` or `'\n'` is consumed as one unit (the whole run of
`char::is_whitespace` characters is dropped), and yields exactly one
`Descendant` token if and only if some character follows the run, that
character is not `>`, `+` or `~`, and the previously emitted token is not
a combinator; a run beginning with any other whitespace character (CR, VT,
FF) is not handled by the whitespace arm and produces a parse error
instead. -/
theorem c5_whitespace_run :
    ∀ (cs : List Char) (toks : List Token) (fuel : Nat),
      (tokenizeFuel (fuel + 1) (' ' :: cs) toks =
         tokenizeFuel fuel ((' ' :: cs).dropWhile rustIsWhitespace)
           (toks ++ (if emitsDescendant ((' ' :: cs).dropWhile rustIsWhitespace) toks
                     then [Token.Combinator Combinator.Descendant] else []))) ∧
      (tokenizeFuel (fuel + 1) ('\t' :: cs) toks =
         tokenizeFuel fuel (('\t' :: cs).dropWhile rustIsWhitespace)
           (toks ++ (if emitsDescendant (('\t' :: cs).dropWhile rustIsWhitespace) toks
                     then [Token.Combinator Combinator.Descendant] else []))) ∧
      (tokenizeFuel (fuel + 1) ('\n' :: cs) toks =
         tokenizeFuel fuel (('\n' :: cs).dropWhile rustIsWhitespace)
           (toks ++ (if emitsDescendant (('\n' :: cs).dropWhile rustIsWhitespace) toks
                     then [Token.Combinator Combinator.Descendant] else []))) :=
  fun cs toks fuel =>
    ⟨ws_run_step_space cs toks fuel, ws_run_step_tab cs toks fuel,
     ws_run_step_newline cs toks fuel⟩

/-- Claim C6: whenever a combinator is followed by another token, a `Child`
combinator allocates the fresh node alias `n(k+1)` joined by the single
equality "new alias's parent_id = current anchor's id", while a
`Descendant` combinator joins the fresh alias against the recursive
transitive-closure subquery whose seed selects the direct children of the
anchor and whose recursive step selects children of anything already in
the closure; in both cases the anchor advances to the new alias. -/
theorem c6_combinator_joins :
    ∀ (st : GenState) (t : Token) (rest : List Token),
      (genLoop (Token.Combinator Combinator.Child :: t :: rest) st =
        genLoop (t :: rest)
          { sql_joins := st.sql_joins ++
              ("\nJOIN nodes n" ++ toString (st.join_count + 1) ++ " ON n" ++
                toString (st.join_count + 1) ++ ".parent_id = " ++ st.current_table ++ ".id")
            join_count := st.join_count + 1
            where_clauses := st.where_clauses
            current_table := "n" ++ toString (st.join_count + 1) }) ∧
      (genLoop (Token.Combinator Combinator.Descendant :: t :: rest) st =
        genLoop (t :: rest)
          { sql_joins := st.sql_joins ++
              ("\nJOIN nodes n" ++ toString (st.join_count + 1) ++ " ON n" ++
                toString (st.join_count + 1) ++
                ".id IN (\n    WITH RECURSIVE descendants AS (\n        SELECT id FROM nodes WHERE parent_id = " ++
                st.current_table ++
                ".id\n        UNION ALL\n        SELECT n.id FROM nodes n\n        JOIN descendants d ON n.parent_id = d.id\n    )\n    SELECT id FROM descendants\n)")
            join_count := st.join_count + 1
            where_clauses := st.where_clauses
            current_table := "n" ++ toString (st.join_count + 1) }) := by
  intro st t rest
  constructor
  · show genLoop (t :: rest)
        { st with
          join_count := st.join_count + 1
          sql_joins := st.sql_joins ++ ("\nJOIN nodes " ++ ("n" ++ toString (st.join_count + 1)) ++ " ON " ++
            ("n" ++ toString (st.join_count + 1)) ++ ".parent_id = " ++ st.current_table ++ ".id")
          current_table := "n" ++ toString (st.join_count + 1) } = _
    congr 2
    simp only [String.append_assoc]
    rw [appendMerge " ON " "n" " ON n" rfl, appendMerge "\nJOIN nodes " "n" "\nJOIN nodes n" rfl]
  · show genLoop (t :: rest)
        { st with
          join_count := st.join_count + 1
          sql_joins := st.sql_joins ++ ("\nJOIN nodes " ++ ("n" ++ toString (st.join_count + 1)) ++ " ON " ++
            ("n" ++ toString (st.join_count + 1)) ++
            ".id IN (\n    WITH RECURSIVE descendants AS (\n        SELECT id FROM nodes WHERE parent_id = " ++
            st.current_table ++ ".id\n        UNION ALL\n        SELECT n.id FROM nodes n\n        JOIN descendants d ON n.parent_id = d.id\n    )\n    SELECT id FROM descendants\n)")
          current_table := "n" ++ toString (st.join_count + 1) } = _
    congr 2
    simp only [String.append_assoc]
    rw [appendMerge " ON " "n" " ON n" rfl, appendMerge "\nJOIN nodes " "n" "\nJOIN nodes n" rfl]

/-- Claim C7: a bracketed attribute clause maps `[name]` to `Exists` with no
value, `[name=val]` to `Equals`, `[name~=val]` to `WordMatch`,
`[name^=val]` to `StartsWith`, `[name$=val]` to `EndsWith` and
`[name*=val]` to `Contains`; the value may be an unquoted identifier or a
single- or double-quoted string whose quote character is consumed as a
delimiter with no in-value escaping; in particular `"[href='#']"`
tokenizes to the attribute token with name "href", value "#" and operator
`Equals`. -/
theorem c7_attribute_operators :
    (∀ name rest : List Char, name.all isIdentChar = true →
       parse_attribute (name ++ ']' :: rest) =
         .ok (Token.Attribute ⟨name⟩ none AttributeOperator.Exists, rest)) ∧
    (∀ name val rest : List Char,
       name.all isIdentChar = true → val.all isIdentChar = true →
       parse_attribute (name ++ '=' :: (val ++ ']' :: rest)) =
         .ok (Token.Attribute ⟨name⟩ (some ⟨val⟩) AttributeOperator.Equals, rest)) ∧
    (∀ name val rest : List Char,
       name.all isIdentChar = true → val.all isIdentChar = true →
       parse_attribute (name ++ '~' :: '=' :: (val ++ ']' :: rest)) =
         .ok (Token.Attribute ⟨name⟩ (some ⟨val⟩) AttributeOperator.WordMatch, rest)) ∧
    (∀ name val rest : List Char,
       name.all isIdentChar = true → val.all isIdentChar = true →
       parse_attribute (name ++ '^' :: '=' :: (val ++ ']' :: rest)) =
         .ok (Token.Attribute ⟨name⟩ (some ⟨val⟩) AttributeOperator.StartsWith, rest)) ∧
    (∀ name val rest : List Char,
       name.all isIdentChar = true → val.all isIdentChar = true →
       parse_attribute (name ++ '$' :: '=' :: (val ++ ']' :: rest)) =
         .ok (Token.Attribute ⟨name⟩ (some ⟨val⟩) AttributeOperator.EndsWith, rest)) ∧
    (∀ name val rest : List Char,
       name.all isIdentChar = true → val.all isIdentChar = true →
       parse_attribute (name ++ '*' :: '=' :: (val ++ ']' :: rest)) =
         .ok (Token.Attribute ⟨name⟩ (some ⟨val⟩) AttributeOperator.Contains, rest)) ∧
    (∀ name val rest : List Char,
       name.all isIdentChar = true → (∀ c ∈ val, c ≠ '\'') →
       parse_attribute (name ++ '=' :: '\'' :: (val ++ '\'' :: ']' :: rest)) =
         .ok (Token.Attribute ⟨name⟩ (some ⟨val⟩) AttributeOperator.Equals, rest)) ∧
    (∀ name val rest : List Char,
       name.all isIdentChar = true → (∀ c ∈ val, c ≠ '"') →
       parse_attribute (name ++ '=' :: '"' :: (val ++ '"' :: ']' :: rest)) =
         .ok (Token.Attribute ⟨name⟩ (some ⟨val⟩) AttributeOperator.Equals, rest)) ∧
    tokenize 2 "[href='#']" =
      some (.ok [Token.Attribute "href" (some "#") AttributeOperator.Equals]) :=
  ⟨parse_attribute_exists, parse_attribute_equals_unquoted, parse_attribute_wordmatch,
   parse_attribute_startswith, parse_attribute_endswith, parse_attribute_contains,
   parse_attribute_quoted_sq, parse_attribute_quoted_dq, rfl⟩

theorem c7_attribute_operators_witness :
    parse_attribute (['d', 'a', 't', 'a', '-', 'i', 'd'] ++ ']' :: []) =
      .ok (Token.Attribute ⟨['d', 'a', 't', 'a', '-', 'i', 'd']⟩ none AttributeOperator.Exists, []) ∧
    parse_attribute (['a'] ++ '=' :: (['b'] ++ ']' :: [])) =
      .ok (Token.Attribute ⟨['a']⟩ (some ⟨['b']⟩) AttributeOperator.Equals, []) ∧
    parse_attribute (['a'] ++ '~' :: '=' :: (['b'] ++ ']' :: [])) =
      .ok (Token.Attribute ⟨['a']⟩ (some ⟨['b']⟩) AttributeOperator.WordMatch, []) ∧
    parse_attribute (['a'] ++ '^' :: '=' :: (['b'] ++ ']' :: [])) =
      .ok (Token.Attribute ⟨['a']⟩ (some ⟨['b']⟩) AttributeOperator.StartsWith, []) ∧
    parse_attribute (['a'] ++ '$' :: '=' :: (['b'] ++ ']' :: [])) =
      .ok (Token.Attribute ⟨['a']⟩ (some ⟨['b']⟩) AttributeOperator.EndsWith, []) ∧
    parse_attribute (['a'] ++ '*' :: '=' :: (['b'] ++ ']' :: [])) =
      .ok (Token.Attribute ⟨['a']⟩ (some ⟨['b']⟩) AttributeOperator.Contains, []) ∧
    parse_attribute (['h', 'r', 'e', 'f'] ++ '=' :: '\'' :: (['#'] ++ '\'' :: ']' :: [])) =
      .ok (Token.Attribute ⟨['h', 'r', 'e', 'f']⟩ (some ⟨['#']⟩) AttributeOperator.Equals, []) ∧
    parse_attribute (['a'] ++ '=' :: '"' :: (['#'] ++ '"' :: ']' :: [])) =
      .ok (Token.Attribute ⟨['a']⟩ (some ⟨['#']⟩) AttributeOperator.Equals, []) :=
  ⟨c7_attribute_operators.1 _ _ (by decide),
   c7_attribute_operators.2.1 _ _ _ (by decide) (by decide),
   c7_attribute_operators.2.2.1 _ _ _ (by decide) (by decide),
   c7_attribute_operators.2.2.2.1 _ _ _ (by decide) (by decide),
   c7_attribute_operators.2.2.2.2.1 _ _ _ (by decide) (by decide),
   c7_attribute_operators.2.2.2.2.2.1 _ _ _ (by decide) (by decide),
   c7_attribute_operators.2.2.2.2.2.2.1 _ _ _ (by decide) (by decide),
   c7_attribute_operators.2.2.2.2.2.2.2.1 _ _ _ (by decide) (by decide)⟩

/-- Claim C8: `css_to_sql "a + b"` and `css_to_sql "a ~ b"` fail with the
unsupported-feature message naming the combinator, and more generally any
token sequence containing a sibling combinator is rejected by the
generator loop from any state, and so never compiled. -/
theorem c8_sibling_combinators_rejected :
    css_to_sql 10 "a + b" = some (.error "Next sibling combinator (+) not yet supported") ∧
    css_to_sql 10 "a ~ b" = some (.error "General sibling combinator (~) not yet supported") ∧
    (∀ (toks : List Token) (st : GenState),
       (Token.Combinator Combinator.NextSibling ∈ toks ∨
        Token.Combinator Combinator.GeneralSibling ∈ toks) →
       ∃ e, genLoop toks st = .error e) :=
  ⟨rfl, rfl, genLoop_sibling_error⟩

theorem c8_sibling_combinators_rejected_witness :
    (Token.Combinator Combinator.NextSibling ∈
       [Token.TagName "a", Token.Combinator Combinator.NextSibling, Token.TagName "b"] ∨
     Token.Combinator Combinator.GeneralSibling ∈
       [Token.TagName "a", Token.Combinator Combinator.NextSibling, Token.TagName "b"]) ∧
    (∃ e, genLoop [Token.TagName "a", Token.Combinator Combinator.NextSibling, Token.TagName "b"]
        ⟨"FROM nodes n1", 1, [], "n1"⟩ = .error e) :=
  ⟨Or.inl (by simp), c8_sibling_combinators_rejected.2.2 _ _ (Or.inl (by simp))⟩

/-- Claim C9: every user-supplied literal interpolated into the query text
is escaped by `escape_sql`, which doubles embedded single quotes and does
nothing else (it is the identity on quote-free strings); the escaped text
contains single quotes only in adjacent pairs, so an embedded quote never
terminates the emitted string literal early.  The first two conjuncts
exhibit the interpolation of the escaped literal for tag and class
tokens. -/
theorem c9_single_quote_escaping :
    (∀ v : String, generate_sql [Token.TagName v] =
       .ok ("SELECT DISTINCT n1.*\nFROM nodes n1\nWHERE n1.tag_name = '" ++ escape_sql v ++ "'")) ∧
    (∀ v : String, generate_sql [Token.Class v] =
       .ok ("SELECT DISTINCT n1.*\nFROM nodes n1\nJOIN attributes a2 ON a2.node_id = n1.id\nWHERE a2.name = 'class' AND (a2.value = '"
         ++ escape_sql v ++ "' OR a2.value LIKE '% " ++ escape_sql v ++ "' OR a2.value LIKE '"
         ++ escape_sql v ++ " %' OR a2.value LIKE '% " ++ escape_sql v ++ " %')")) ∧
    (∀ s : String, quotesPaired (escape_sql s).data = true) ∧
    (∀ s : String, (∀ c ∈ s.data, c ≠ '\'') → escape_sql s = s) := by
  refine ⟨generate_sql_tag, generate_sql_class, ?_, ?_⟩
  · intro s
    exact quotesPaired_escape s.data
  · intro s h
    obtain ⟨l⟩ := s
    exact congrArg String.mk (escape_sql_chars_id l h)

theorem c9_single_quote_escaping_witness :
    (∀ c ∈ ("abc" : String).data, c ≠ '\'') ∧
    escape_sql "abc" = "abc" ∧
    generate_sql [Token.TagName "o'brien"] =
      .ok ("SELECT DISTINCT n1.*\nFROM nodes n1\nWHERE n1.tag_name = '" ++ escape_sql "o'brien" ++ "'") ∧
    quotesPaired (escape_sql "o'brien").data = true :=
  ⟨by decide, c9_single_quote_escaping.2.2.2 "abc" (by decide),
   c9_single_quote_escaping.1 "o'brien",
   c9_single_quote_escaping.2.2.1 "o'brien"⟩

/-- Claim C10: a selector beginning with a combinator is not rejected:
`">div"` tokenizes to a `Child` combinator followed by a tag token, and
`css_to_sql` succeeds, joining a fresh alias `n2` against the
unconstrained initial anchor `n1`. -/
theorem c10_leading_combinator_accepted :
    tokenize 5 ">div" =
      some (.ok [Token.Combinator Combinator.Child, Token.TagName "div"]) ∧
    css_to_sql 5 ">div" =
      some (.ok "SELECT DISTINCT n2.*\nFROM nodes n1\nJOIN nodes n2 ON n2.parent_id = n1.id\nWHERE n2.tag_name = 'div'") :=
  ⟨rfl, rfl⟩
